import Mathlib

/-
Verification development for the sleepless-agent task-processing core.

Shallow embedding of:
  - core/models.py     (Task row, priority / status / type enumerations)
  - core/queue.py      (TaskQueue operations)
  - core/task_runtime.py (TaskRuntime.execute, _run_task_with_timeout,
                          _handle_pause_exception)
  - storage/results.py (ResultManager.save_result, update_result_commit_info)
  - storage/git.py     (GitManager.validate_changes, _contains_secrets,
                        _validate_python_syntax)

Modelling conventions:
  - datetime values are modelled as Int (seconds); `datetime.now()` becomes an
    explicit `now : Int` argument at every operation that reads the clock.
  - The SQLite store is modelled as an in-memory list of rows plus the
    autoincrement counter; `session.query(...).filter(Task.id == tid).first()`
    becomes `List.find?` on the row list and an ORM mutation of the found row
    becomes a functional update of the first matching row.
  - The JSON text `context` column is modelled by the key/value dictionary it
    encodes: `json.dumps` is injective on dictionaries, `json.loads` is its
    left inverse, and the serialized text of any dictionary (including the
    empty one) is a non-empty, hence truthy, string.  Python truthiness of the
    caller-supplied dict (`if context`) is emptiness of the dictionary.
  - Python `str.upper` is modelled ASCII-wise via `Char.toUpper`, matching its
    behaviour on all inputs relevant here.
  - External collaborators of the runtime (the coding-agent subprocess, the
    git working tree, the filesystem) enter as explicit parameters: the
    adapter call is an `ExecOutcome` value, file reads are a
    `String → Option String` function (`none` = the read raises), and the
    Python `ast.parse` success predicate is an uninterpreted
    `String → Bool` parameter.
-/

namespace SleeplessAgent

/-- Priority enumeration; source: core/models.py `TaskPriority`. -/
inductive TaskPriority where
  | thought
  | serious
  | generated
  deriving DecidableEq

/-- Status enumeration; source: core/models.py `TaskStatus`. -/
inductive TaskStatus where
  | pending
  | in_progress
  | completed
  | failed
  | cancelled
  deriving DecidableEq

/-- Task type enumeration; source: core/models.py `TaskType`. -/
inductive TaskType where
  | new
  | refine
  deriving DecidableEq

/-- Context dictionary carried in the JSON `context` column (flat key/value
map, as in the round-trip examples of the spec). -/
abbrev Ctx := List (String × String)

/-- Task row; source: core/models.py `class Task`. -/
structure Task where
  id : Nat
  description : String
  priority : TaskPriority
  task_type : Option TaskType
  status : TaskStatus
  created_at : Int
  started_at : Option Int
  completed_at : Option Int
  deleted_at : Option Int
  attempt_count : Nat
  error_message : Option String
  result_id : Option Nat
  context : Option Ctx
  assigned_to : Option String
  slack_thread_ts : Option String
  project_id : Option String
  project_name : Option String
  deriving DecidableEq

/-- Queue database state: the `tasks` table plus the autoincrement counter. -/
structure QueueState where
  tasks : List Task
  next_id : Nat
  deriving DecidableEq

/-- Functional update of the first row matching an id, mirroring a mutation of
the object returned by `.filter(Task.id == tid).first()`. -/
def updateFirst (f : Task → Task) (tid : Nat) : List Task → List Task
  | [] => []
  | t :: ts => if t.id == tid then f t :: ts else t :: updateFirst f tid ts

/-- Shared shape of the single-row write operations of core/queue.py: query
the first row with the given id, mutate it with `f`, return the mutated row
(`none` when the id does not exist). -/
def runWrite (s : QueueState) (tid : Nat) (f : Task → Task) :
    Option Task × QueueState :=
  match s.tasks.find? (fun t => t.id == tid) with
  | none => (none, s)
  | some t => (some (f t), { s with tasks := updateFirst f tid s.tasks })

/-- Source: core/queue.py `TaskQueue.add_task` (lines 42-71).  The stored
context column is `json.dumps(context) if context else None`: a falsy
(absent or empty) dictionary is stored as NULL. -/
def add_task (s : QueueState) (now : Int) (description : String)
    (priority : TaskPriority) (context : Option Ctx)
    (slack_user_id slack_thread_ts project_id project_name : Option String) :
    Task × QueueState :=
  let task : Task :=
    { id := s.next_id
      description := description
      priority := priority
      task_type := some TaskType.new
      status := TaskStatus.pending
      created_at := now
      started_at := none
      completed_at := none
      deleted_at := none
      attempt_count := 0
      error_message := none
      result_id := none
      context :=
        match context with
        | some c => if c.isEmpty then none else some c
        | none => none
      assigned_to := slack_user_id
      slack_thread_ts := slack_thread_ts
      project_id := project_id
      project_name := project_name }
  (task, { tasks := s.tasks ++ [task], next_id := s.next_id + 1 })

/-- Source: core/queue.py `TaskQueue.get_task` (lines 73-79). -/
def get_task (s : QueueState) (task_id : Nat) : Option Task :=
  s.tasks.find? (fun t => t.id == task_id)

/-- Rank used by the `case` expression of `get_pending_tasks`:
SERIOUS maps to 0, THOUGHT to 1, anything else to 2. -/
def priorityRank (p : TaskPriority) : Nat :=
  if p = TaskPriority.serious then 0
  else if p = TaskPriority.thought then 1
  else 2

/-- Comparison realising `ORDER BY (priority_order, created_at)`. -/
def pendingLE (a b : Task) : Bool :=
  decide (priorityRank a.priority < priorityRank b.priority ∨
    (priorityRank a.priority = priorityRank b.priority ∧
      a.created_at ≤ b.created_at))

/-- Source: core/queue.py `TaskQueue.get_pending_tasks` (lines 81-98): filter
PENDING rows, order by (priority rank, created_at), apply LIMIT.  The scan
order of the store is deterministic, modelled by a stable sort. -/
def get_pending_tasks (s : QueueState) (limit : Nat) : List Task :=
  (((s.tasks.filter (fun t => decide (t.status = TaskStatus.pending))).mergeSort
      pendingLE).take limit)

/-- Source: core/queue.py `TaskQueue.mark_in_progress` (lines 108-122).
No status check: sets IN_PROGRESS, stamps `started_at`, bumps
`attempt_count` on whatever row the id names. -/
def mark_in_progress (s : QueueState) (now : Int) (task_id : Nat) :
    Option Task × QueueState :=
  runWrite s task_id (fun t =>
    { t with status := TaskStatus.in_progress
             started_at := some now
             attempt_count := t.attempt_count + 1 })

/-- Source: core/queue.py `TaskQueue.mark_completed` (lines 124-138). -/
def mark_completed (s : QueueState) (now : Int) (task_id : Nat)
    (result_id : Option Nat) : Option Task × QueueState :=
  runWrite s task_id (fun t =>
    { t with status := TaskStatus.completed
             completed_at := some now
             result_id := result_id })

/-- Source: core/queue.py `TaskQueue.mark_failed` (lines 140-155).  An already
present `completed_at` is preserved (`if not task.completed_at`). -/
def mark_failed (s : QueueState) (now : Int) (task_id : Nat)
    (error_message : String) : Option Task × QueueState :=
  runWrite s task_id (fun t =>
    { t with status := TaskStatus.failed
             error_message := some error_message
             completed_at :=
               match t.completed_at with
               | none => some now
               | some c => some c })

/-- Source: core/queue.py `TaskQueue.cancel_task` (lines 157-170): mutates the
row only when its current status is PENDING. -/
def cancel_task (s : QueueState) (now : Int) (task_id : Nat) :
    Option Task × QueueState :=
  runWrite s task_id (fun t =>
    if t.status = TaskStatus.pending then
      { t with status := TaskStatus.cancelled, deleted_at := some now }
    else t)

/-- Source: core/queue.py `TaskQueue.update_priority` (lines 172-184).
No status check. -/
def update_priority (s : QueueState) (task_id : Nat) (priority : TaskPriority) :
    Option Task × QueueState :=
  runWrite s task_id (fun t => { t with priority := priority })

/-- Source: core/queue.py `TaskQueue.get_task_context` (lines 206-211): decode
the JSON column when the task exists and the column is truthy (serialized
dictionaries are never the empty string). -/
def get_task_context (s : QueueState) (task_id : Nat) : Option Ctx :=
  match get_task s task_id with
  | some t =>
      match t.context with
      | some c => some c
      | none => none
  | none => none

/-- Predicate of the expiry query of `timeout_expired_tasks`: IN_PROGRESS,
`started_at` not NULL and strictly older than the cutoff. -/
def timeoutExpiredCond (cutoff : Int) (t : Task) : Bool :=
  decide (t.status = TaskStatus.in_progress) &&
    (match t.started_at with
     | some st => decide (st < cutoff)
     | none => false)

/-- Timeout message generated by `timeout_expired_tasks`
(`max_age_seconds // 60`, floor division on a positive argument). -/
def timeoutErrorMessage (max_age_seconds : Int) : String :=
  s!"Timed out after exceeding {max_age_seconds / 60} minute limit."

/-- Row mutation applied by `timeout_expired_tasks` to each expired task. -/
def timeoutUpdate (now : Int) (max_age_seconds : Int) (t : Task) : Task :=
  { t with status := TaskStatus.failed
           completed_at := some now
           error_message := some (timeoutErrorMessage max_age_seconds) }

/-- Source: core/queue.py `TaskQueue.timeout_expired_tasks` (lines 244-278):
early-return on `max_age_seconds <= 0`, one transactional sweep that fails all
expired IN_PROGRESS rows and returns them. -/
def timeout_expired_tasks (s : QueueState) (now : Int) (max_age_seconds : Int) :
    List Task × QueueState :=
  if max_age_seconds ≤ 0 then ([], s)
  else
    let cutoff := now - max_age_seconds
    let tasks := s.tasks.filter (timeoutExpiredCond cutoff)
    if tasks.isEmpty then ([], s)
    else
      (tasks.map (timeoutUpdate now max_age_seconds),
       { s with tasks := s.tasks.map (fun t =>
           if timeoutExpiredCond cutoff t then timeoutUpdate now max_age_seconds t
           else t) })

/-- Upper-casing of a string, ASCII model of Python `str.upper`. -/
def strUpper (s : String) : String := ⟨s.data.map Char.toUpper⟩

/-- Auxiliary scan for substring containment. -/
def strContainsAux (ns : List Char) : List Char → Bool
  | [] => ns.isEmpty
  | h :: hs => ns.isPrefixOf (h :: hs) || strContainsAux ns hs

/-- Python `needle in hay` on strings. -/
def strContainsSub (hay needle : String) : Bool := strContainsAux needle.data hay.data

/-- Python `s.endswith(suf)`. -/
def strEndsWithSuffix (s suf : String) : Bool := suf.data.isSuffixOf s.data

/-- Source: storage/git.py `GitManager._contains_secrets` (lines 458-475):
the verbatim pattern list, each pattern tested as a substring of the
UPPER-CASED file content; an unreadable file reports no secret. -/
def secret_patterns : List String :=
  ["PRIVATE_KEY", "API_KEY", "PASSWORD", "SECRET", "TOKEN", "credential"]

/-- Secret scan of one file; `readFile` models `Path.read_text`
(`none` = the read raises, swallowed by the bare `except`). -/
def contains_secrets (readFile : String → Option String) (file : String) : Bool :=
  match readFile file with
  | none => false
  | some content => secret_patterns.any (fun p => strContainsSub (strUpper content) p)

/-- Source: storage/git.py `GitManager._validate_python_syntax` (lines
477-484); `pyParses` is the success predicate of `ast.parse` and a failing
read counts as invalid. -/
def validPythonSource (readFile : String → Option String)
    (pyParses : String → Bool) (file : String) : Bool :=
  match readFile file with
  | none => false
  | some content => pyParses content

/-- Source: storage/git.py `GitManager.validate_changes` (lines 219-234):
collect one issue per failed secret scan and one per `.py` file that does not
parse; `(True, "OK")` when no issues, else `(False, newline-joined issues)`. -/
def validate_changes (readFile : String → Option String)
    (pyParses : String → Bool) (files : List String) : Bool × String :=
  let issues := files.foldr (fun file acc =>
    (if contains_secrets readFile file then [s!"Potential secret in {file}"] else [])
      ++ (if strEndsWithSuffix file ".py" && !(validPythonSource readFile pyParses file)
          then [s!"Python syntax error in {file}"] else [])
      ++ acc) []
  if issues.isEmpty then (true, "OK")
  else (false, String.intercalate "\n" issues)

/-- Result row; source: core/models.py `class Result`. -/
structure ResultRec where
  id : Nat
  task_id : Nat
  output : String
  files_modified : List String
  commands_executed : List String
  git_commit_sha : Option String
  git_pr_url : Option String
  git_branch : Option String
  workspace_path : String
  processing_time_seconds : Int
  deriving DecidableEq

/-- Result store: the `results` table plus its autoincrement counter. -/
structure ResultStore where
  results : List ResultRec
  next_id : Nat
  deriving DecidableEq

/-- Source: storage/results.py `ResultManager.save_result`: insert one Result
row and return it. -/
def save_result (rs : ResultStore) (task_id : Nat) (output : String)
    (files_modified commands_executed : List String)
    (processing_time_seconds : Int)
    (git_commit_sha git_pr_url git_branch : Option String)
    (workspace_path : String) : ResultRec × ResultStore :=
  let r : ResultRec :=
    { id := rs.next_id
      task_id := task_id
      output := output
      files_modified := files_modified
      commands_executed := commands_executed
      git_commit_sha := git_commit_sha
      git_pr_url := git_pr_url
      git_branch := git_branch
      workspace_path := workspace_path
      processing_time_seconds := processing_time_seconds }
  (r, { results := rs.results ++ [r], next_id := rs.next_id + 1 })

/-- Source: storage/results.py `ResultManager.update_result_commit_info`:
backfill the git columns of the named Result row. -/
def update_result_commit_info (rs : ResultStore) (rid : Nat)
    (git_commit_sha git_pr_url git_branch : Option String) : ResultStore :=
  { rs with results := rs.results.map (fun r =>
      if r.id == rid then
        { r with git_commit_sha := git_commit_sha
                 git_pr_url := git_pr_url
                 git_branch := git_branch }
      else r) }

/-- Outcome of the awaited adapter call inside `TaskRuntime.execute`:
a normal return, the converted `asyncio.TimeoutError`, a `PauseException`
(usage percentage and optional reset time), or any other exception. -/
inductive ExecOutcome where
  | success (output : String) (files_modified commands_executed : List String)
      (exit_code : Int) (eval_status : Option String)
  | timeout
  | pause (usage_percent : Int) (reset_time : Option Int)
  | failure (message : String)

/-- Observable effects of one `TaskRuntime.execute` call: final stores, whether
the commit step (`_maybe_commit_changes`) was invoked, the duration handed to
the pause sleep, and whether the call re-raised. -/
structure ExecEffects where
  queue : QueueState
  results : ResultStore
  commit_attempted : Bool
  sleep_seconds : Int
  raised : Bool
  deriving DecidableEq

/-- Evaluator gate of core/task_runtime.py line 164:
`eval_status and eval_status.upper() in ["INCOMPLETE", "FAILED", "PARTIAL"]`. -/
def evaluatorOverride : Option String → Bool
  | none => false
  | some e =>
      decide (e ≠ "") &&
        decide (strUpper e = "INCOMPLETE" ∨ strUpper e = "FAILED" ∨
          strUpper e = "PARTIAL")

/-- Message of the timeout conversion in `_run_task_with_timeout` (lines
236-254): `"Timed out after N minute(s)"` with `N = max(1, timeout // 60)`. -/
def timeoutFailureMessage (task_timeout_seconds : Int) : String :=
  s!"Timed out after {max 1 (task_timeout_seconds / 60)} minute(s)"

/-- Source: core/task_runtime.py `TaskRuntime._handle_pause_exception` (lines
528-603): persist a Result from whatever partial data is available (with a
placeholder output when the partial output is empty), mark the task COMPLETED
with that result id, compute the sleep duration until the reported reset time
(clamped at zero, zero when absent) and suspend for it; nothing re-raises. -/
def handle_pause_exception (qs : QueueState) (rs : ResultStore) (now : Int)
    (task_id : Nat) (usage_percent : Int) (reset_time : Option Int)
    (processing_time : Int) (result_output : String)
    (files_modified commands_executed : List String)
    (workspace : Option String) : ExecEffects :=
  let _ := usage_percent
  let output :=
    if result_output = "" then "[Task completed before pause]" else result_output
  let saved := save_result rs task_id output files_modified commands_executed
    processing_time none none none
    (match workspace with | some w => w | none => "")
  let qs2 := (mark_completed qs now task_id (some saved.1.id)).2
  let sleep_seconds : Int :=
    match reset_time with
    | some rt => max 0 (rt - now)
    | none => 0
  { queue := qs2
    results := saved.2
    commit_attempted := false
    sleep_seconds := sleep_seconds
    raised := false }

/-- Source: core/task_runtime.py `TaskRuntime.execute` (lines 58-221).
External effects enter as parameters: `outcome` is what the awaited adapter
call produced, `workspace_exists` is `workspace and workspace.exists()`,
`commit_sha` is the value `_maybe_commit_changes` returns when invoked, and
`processing_time` is `int(time.time() - start_time)`.  Every failure path is
caught by the surrounding handlers, so no path re-raises. -/
def execute (task : Task) (qs : QueueState) (rs : ResultStore)
    (task_timeout_seconds : Int) (now : Int) (processing_time : Int)
    (outcome : ExecOutcome) (git_branch : String) (workspace_path : String)
    (workspace_exists : Bool) (commit_sha : Option String) : ExecEffects :=
  let qs1 := (mark_in_progress qs now task.id).2
  match outcome with
  | ExecOutcome.success output files_modified commands_executed _exit_code eval_status =>
      let files := files_modified.mergeSort (fun a b => !decide (b < a))
      let saved := save_result rs task.id output files commands_executed
        processing_time none none (some git_branch) workspace_path
      let rs2 :=
        if workspace_exists then
          match commit_sha with
          | some sha =>
              update_result_commit_info saved.2 saved.1.id (some sha) none
                (some git_branch)
          | none => saved.2
        else saved.2
      if evaluatorOverride eval_status then
        let msg :=
          match eval_status with
          | some e => "Evaluator status: " ++ e
          | none => "Evaluator status: None"
        { queue := (mark_failed qs1 now task.id msg).2
          results := rs2
          commit_attempted := workspace_exists
          sleep_seconds := 0
          raised := false }
      else
        { queue := (mark_completed qs1 now task.id (some saved.1.id)).2
          results := rs2
          commit_attempted := workspace_exists
          sleep_seconds := 0
          raised := false }
  | ExecOutcome.timeout =>
      { queue := (mark_failed qs1 now task.id (timeoutFailureMessage task_timeout_seconds)).2
        results := rs
        commit_attempted := false
        sleep_seconds := 0
        raised := false }
  | ExecOutcome.pause usage_percent reset_time =>
      handle_pause_exception qs1 rs now task.id usage_percent reset_time
        processing_time "" [] [] none
  | ExecOutcome.failure message =>
      { queue := (mark_failed qs1 now task.id message).2
        results := rs
        commit_attempted := false
        sleep_seconds := 0
        raised := false }

/-! Helper lemmas about the store model. -/

/-- Updating the first row with a given id commutes with looking that id up,
provided the update preserves the id column. -/
theorem find?_updateFirst_self (f : Task → Task) (hf : ∀ t, (f t).id = t.id)
    (tid : Nat) :
    ∀ tasks : List Task,
      (updateFirst f tid tasks).find? (fun t => t.id == tid) =
        (tasks.find? (fun t => t.id == tid)).map f
  | [] => rfl
  | t :: ts => by
    by_cases h : t.id == tid
    · simp [updateFirst, h, List.find?_cons_of_pos, hf t]
    · simp only [updateFirst, if_neg h]
      rw [List.find?_cons_of_neg _ (by simpa using h),
        List.find?_cons_of_neg _ (by simpa using h),
        find?_updateFirst_self f hf tid ts]

/-- Looking up the written id after a single-row write sees the mutation,
provided the mutation preserves the id column. -/
theorem get_task_runWrite_self (s : QueueState) (tid : Nat) (f : Task → Task)
    (hf : ∀ t, (f t).id = t.id) :
    get_task (runWrite s tid f).2 tid = (get_task s tid).map f := by
  unfold get_task runWrite
  cases h : s.tasks.find? (fun t => t.id == tid) with
  | none => simp [h]
  | some t => simp [h, find?_updateFirst_self f hf tid s.tasks]

/-- A first-row update whose mutation fixes the found row leaves the row list
unchanged. -/
theorem updateFirst_of_fix (f : Task → Task) (tid : Nat) :
    ∀ tasks : List Task, ∀ t,
      tasks.find? (fun u => u.id == tid) = some t → f t = t →
        updateFirst f tid tasks = tasks
  | [], t, h, _ => by simp at h
  | u :: ts, t, h, hfix => by
    by_cases hu : (u.id == tid) = true
    · simp [hu] at h
      subst h
      simp [updateFirst, hu, hfix]
    · simp [hu] at h
      simp [updateFirst, hu, updateFirst_of_fix f tid ts t h hfix]

/-- A single-row write whose mutation fixes the found row is a pure read. -/
theorem runWrite_of_fix (s : QueueState) (tid : Nat) (f : Task → Task) (t : Task)
    (h : get_task s tid = some t) (hfix : f t = t) :
    runWrite s tid f = (some t, s) := by
  unfold get_task at h
  unfold runWrite
  rw [h]
  show (some (f t), { s with tasks := updateFirst f tid s.tasks }) = (some t, s)
  rw [updateFirst_of_fix f tid s.tasks t h hfix, hfix]

/-- Transitivity of the pending-queue ordering key. -/
theorem pendingLE_trans (a b c : Task) (hab : pendingLE a b) (hbc : pendingLE b c) :
    pendingLE a c := by
  simp only [pendingLE, decide_eq_true_eq] at *
  rcases hab with h1 | ⟨h1, h1'⟩ <;> rcases hbc with h2 | ⟨h2, h2'⟩
  · exact Or.inl (h1.trans h2)
  · exact Or.inl (h2 ▸ h1)
  · exact Or.inl (h1 ▸ h2)
  · exact Or.inr ⟨h1.trans h2, le_trans h1' h2'⟩

/-- Totality of the pending-queue ordering key. -/
theorem pendingLE_total (a b : Task) : pendingLE a b || pendingLE b a := by
  simp only [pendingLE, Bool.or_eq_true, decide_eq_true_eq]
  omega

/-- Unfolding of the expiry predicate of the timeout sweep. -/
theorem timeoutExpiredCond_iff (cutoff : Int) (t : Task) :
    timeoutExpiredCond cutoff t = true ↔
      t.status = TaskStatus.in_progress ∧
        ∃ st, t.started_at = some st ∧ st < cutoff := by
  unfold timeoutExpiredCond
  cases h : t.started_at <;> simp [h]

/-- Returned list of the timeout sweep when the feature is enabled. -/
theorem timeout_expired_tasks_fst (s : QueueState) (now mas : Int) (h : 0 < mas) :
    (timeout_expired_tasks s now mas).1 =
      (s.tasks.filter (timeoutExpiredCond (now - mas))).map (timeoutUpdate now mas) := by
  unfold timeout_expired_tasks
  rw [if_neg (by omega)]
  by_cases he : (s.tasks.filter (timeoutExpiredCond (now - mas))).isEmpty
  · rw [List.isEmpty_iff] at he
    simp [he]
  · simp [he]

/-- Final row list of the timeout sweep when the feature is enabled. -/
theorem timeout_expired_tasks_snd (s : QueueState) (now mas : Int) (h : 0 < mas) :
    (timeout_expired_tasks s now mas).2.tasks =
      s.tasks.map (fun t =>
        if timeoutExpiredCond (now - mas) t then timeoutUpdate now mas t else t) := by
  unfold timeout_expired_tasks
  rw [if_neg (by omega)]
  by_cases he : (s.tasks.filter (timeoutExpiredCond (now - mas))).isEmpty
  · rw [if_pos he]
    have hall := List.filter_eq_nil_iff.mp (List.isEmpty_iff.mp he)
    show s.tasks = _
    calc s.tasks
        = s.tasks.map id := (List.map_id s.tasks).symm
      _ = s.tasks.map (fun t =>
            if timeoutExpiredCond (now - mas) t then timeoutUpdate now mas t else t) :=
          List.map_congr_left (fun t ht => by
            cases hc : timeoutExpiredCond (now - mas) t with
            | false => simp
            | true => exact absurd hc (hall t ht))
  · rw [if_neg he]

/-- Lookup after `mark_in_progress` on the written id. -/
theorem get_task_mark_in_progress (s : QueueState) (now : Int) (tid : Nat) :
    get_task (mark_in_progress s now tid).2 tid =
      (get_task s tid).map (fun t =>
        { t with status := TaskStatus.in_progress
                 started_at := some now
                 attempt_count := t.attempt_count + 1 }) :=
  get_task_runWrite_self s tid _ (fun _ => rfl)

/-- Lookup after `mark_completed` on the written id. -/
theorem get_task_mark_completed (s : QueueState) (now : Int) (tid : Nat)
    (result_id : Option Nat) :
    get_task (mark_completed s now tid result_id).2 tid =
      (get_task s tid).map (fun t =>
        { t with status := TaskStatus.completed
                 completed_at := some now
                 result_id := result_id }) :=
  get_task_runWrite_self s tid _ (fun _ => rfl)

/-- Lookup after `mark_failed` on the written id. -/
theorem get_task_mark_failed (s : QueueState) (now : Int) (tid : Nat)
    (error_message : String) :
    get_task (mark_failed s now tid error_message).2 tid =
      (get_task s tid).map (fun t =>
        { t with status := TaskStatus.failed
                 error_message := some error_message
                 completed_at :=
                   match t.completed_at with
                   | none => some now
                   | some c => some c }) :=
  get_task_runWrite_self s tid _ (fun _ => rfl)

/-! Concrete sample rows used by witnesses and counterexamples. -/

/-- Sample task row for concrete instantiations. -/
def sampleTask : Task :=
  { id := 1
    description := "demo task"
    priority := TaskPriority.thought
    task_type := some TaskType.new
    status := TaskStatus.pending
    created_at := 0
    started_at := none
    completed_at := none
    deleted_at := none
    attempt_count := 0
    error_message := none
    result_id := none
    context := none
    assigned_to := none
    slack_thread_ts := none
    project_id := none
    project_name := none }

/-- Sample COMPLETED (terminal) task row. -/
def completedTask : Task := { sampleTask with status := TaskStatus.completed }

/-- Queue holding one PENDING task with id 1. -/
def pendingState : QueueState := { tasks := [sampleTask], next_id := 2 }

/-- Queue holding one COMPLETED task with id 1. -/
def completedState : QueueState := { tasks := [completedTask], next_id := 2 }

/-- Queue holding one stalled IN_PROGRESS task (started at time 0). -/
def stalledState : QueueState :=
  { tasks := [{ sampleTask with status := TaskStatus.in_progress, started_at := some 0 }]
    next_id := 2 }

/-! Claim theorems. -/

/-- C1: for every store state and every limit, `get_pending_tasks limit`
returns up to `limit` PENDING tasks (exactly `min limit #pending` of them,
all PENDING rows of the store), ordered by priority rank ascending
(SERIOUS = 0, THOUGHT = 1, anything else = 2) with ties broken by
`created_at` ascending — so a SERIOUS task created after a THOUGHT task
precedes it and equal-priority tasks come back in creation order — and
repeated calls with no intervening writes return the same list. -/
theorem get_pending_tasks_spec (s : QueueState) (limit : Nat) :
    (get_pending_tasks s limit).length =
        min limit
          ((s.tasks.filter (fun t => decide (t.status = TaskStatus.pending))).length)
    ∧ (∀ t ∈ get_pending_tasks s limit, t.status = TaskStatus.pending ∧ t ∈ s.tasks)
    ∧ (get_pending_tasks s limit).Pairwise (fun a b =>
        priorityRank a.priority < priorityRank b.priority ∨
          (priorityRank a.priority = priorityRank b.priority ∧
            a.created_at ≤ b.created_at))
    ∧ get_pending_tasks s limit = get_pending_tasks s limit := by
  refine ⟨?_, ?_, ?_, rfl⟩
  · unfold get_pending_tasks
    rw [List.length_take, List.length_mergeSort]
  · intro t ht
    unfold get_pending_tasks at ht
    have ht2 := (List.take_sublist _ _).subset ht
    rw [List.mem_mergeSort] at ht2
    have hm := List.mem_filter.mp ht2
    exact ⟨by simpa using hm.2, hm.1⟩
  · have hs := List.sorted_mergeSort pendingLE_trans pendingLE_total
      (s.tasks.filter (fun t => decide (t.status = TaskStatus.pending)))
    have ht := List.Pairwise.sublist (List.take_sublist limit _) hs
    exact ht.imp (fun hab => by simpa [pendingLE, decide_eq_true_eq] using hab)

/-- C3: for every positive `max_age_seconds` the sweep fails and returns
exactly the IN_PROGRESS tasks whose `started_at` is set and older than
`now - max_age_seconds` (each returned row is FAILED with the generated
timeout message and `completed_at = now`), updates precisely those rows in
place, and an immediately repeated sweep returns the empty list; for every
`max_age_seconds ≤ 0` the sweep is a no-op returning the empty list. -/
theorem timeout_expired_tasks_spec (s : QueueState) (now max_age_seconds : Int) :
    (max_age_seconds ≤ 0 → timeout_expired_tasks s now max_age_seconds = ([], s))
    ∧ (0 < max_age_seconds →
        (∀ t, t ∈ (timeout_expired_tasks s now max_age_seconds).1 ↔
            ∃ t0, t0 ∈ s.tasks ∧ t0.status = TaskStatus.in_progress ∧
              (∃ st, t0.started_at = some st ∧ st < now - max_age_seconds) ∧
              t = timeoutUpdate now max_age_seconds t0)
        ∧ (∀ t, t ∈ (timeout_expired_tasks s now max_age_seconds).1 →
            t.status = TaskStatus.failed ∧ t.completed_at = some now ∧
              t.error_message = some (timeoutErrorMessage max_age_seconds))
        ∧ (∀ i : Nat, ∀ u, s.tasks[i]? = some u →
            (timeout_expired_tasks s now max_age_seconds).2.tasks[i]? =
              some (if timeoutExpiredCond (now - max_age_seconds) u
                then timeoutUpdate now max_age_seconds u else u))
        ∧ (timeout_expired_tasks
            (timeout_expired_tasks s now max_age_seconds).2 now max_age_seconds).1
            = []) := by
  constructor
  · intro h
    unfold timeout_expired_tasks
    rw [if_pos h]
  · intro h
    refine ⟨?_, ?_, ?_, ?_⟩
    · intro t
      rw [timeout_expired_tasks_fst s now max_age_seconds h]
      simp only [List.mem_map, List.mem_filter]
      constructor
      · rintro ⟨t0, ⟨hmem, hcond⟩, rfl⟩
        obtain ⟨h1, h2⟩ := (timeoutExpiredCond_iff _ t0).mp hcond
        exact ⟨t0, hmem, h1, h2, rfl⟩
      · rintro ⟨t0, hmem, h1, h2, rfl⟩
        exact ⟨t0, ⟨hmem, (timeoutExpiredCond_iff _ t0).mpr ⟨h1, h2⟩⟩, rfl⟩
    · intro t ht
      rw [timeout_expired_tasks_fst s now max_age_seconds h] at ht
      obtain ⟨t0, _, rfl⟩ := List.mem_map.mp ht
      exact ⟨rfl, rfl, rfl⟩
    · intro i u hu
      rw [timeout_expired_tasks_snd s now max_age_seconds h]
      rw [List.getElem?_map, hu]
      rfl
    · rw [timeout_expired_tasks_fst _ now max_age_seconds h]
      have hnil : ((timeout_expired_tasks s now max_age_seconds).2.tasks.filter
          (timeoutExpiredCond (now - max_age_seconds))) = [] := by
        rw [timeout_expired_tasks_snd s now max_age_seconds h]
        rw [List.filter_eq_nil_iff]
        intro a ha
        obtain ⟨t0, _, rfl⟩ := List.mem_map.mp ha
        by_cases hc : timeoutExpiredCond (now - max_age_seconds) t0
        · rw [if_pos hc]
          intro hcc
          have hstat := ((timeoutExpiredCond_iff _ _).mp hcc).1
          simp [timeoutUpdate] at hstat
        · rw [if_neg hc]
          exact fun hcc => hc hcc
      rw [hnil]
      rfl

/-- Witness for C3 at a concrete stalled queue: the hypothesis
`0 < max_age_seconds` is discharged at 60 and an immediately repeated sweep
returns the empty list. -/
theorem timeout_expired_tasks_spec_witness :
    (timeout_expired_tasks (timeout_expired_tasks stalledState 100 60).2 100 60).1
      = [] :=
  ((timeout_expired_tasks_spec stalledState 100 60).2 (by decide)).2.2.2

/-- C4: `cancel_task` on a nonexistent id returns nothing; on a task whose
status is not PENDING it is a no-op returning the task with all fields
unchanged and leaving the store unchanged; on a PENDING task it returns the
task with status CANCELLED and `deleted_at = now`, and the store reflects
that update. -/
theorem cancel_task_spec (s : QueueState) (now : Int) (tid : Nat) :
    (get_task s tid = none → cancel_task s now tid = (none, s))
    ∧ (∀ t, get_task s tid = some t → t.status ≠ TaskStatus.pending →
        cancel_task s now tid = (some t, s))
    ∧ (∀ t, get_task s tid = some t → t.status = TaskStatus.pending →
        (cancel_task s now tid).1 =
            some { t with status := TaskStatus.cancelled, deleted_at := some now }
          ∧ get_task (cancel_task s now tid).2 tid =
            some { t with status := TaskStatus.cancelled, deleted_at := some now }) := by
  refine ⟨?_, ?_, ?_⟩
  · intro h
    unfold get_task at h
    unfold cancel_task runWrite
    rw [h]
  · intro t ht hst
    exact runWrite_of_fix s tid _ t ht (if_neg hst)
  · intro t ht hst
    have hf : ∀ u : Task,
        ((fun u : Task => if u.status = TaskStatus.pending then
          { u with status := TaskStatus.cancelled, deleted_at := some now }
          else u) u).id = u.id := by
      intro u
      by_cases hu : u.status = TaskStatus.pending <;> simp [hu]
    constructor
    · unfold get_task at ht
      unfold cancel_task runWrite
      rw [ht]
      simp [if_pos hst]
    · unfold cancel_task
      rw [get_task_runWrite_self s tid _ hf, ht]
      simp [if_pos hst]

/-- Witness for C4 at a concrete COMPLETED task: cancelling it is a no-op. -/
theorem cancel_task_spec_witness :
    cancel_task completedState 7 1 = (some completedTask, completedState) :=
  (cancel_task_spec completedState 7 1).2.1 completedTask rfl (by decide)

/-- C2 counterexample: `update_priority` applied to the id of a COMPLETED
(terminal) task mutates its priority field, so terminal statuses are not
absorbing for all of the listed queue operations. -/
theorem update_priority_mutates_terminal :
    (update_priority completedState 1 TaskPriority.serious).2.tasks =
        [{ completedTask with priority := TaskPriority.serious }]
    ∧ { completedTask with priority := TaskPriority.serious } ≠ completedTask := by
  exact ⟨rfl, by decide⟩

/-- Boolean test for the terminal statuses. -/
def terminalStatus (st : TaskStatus) : Bool :=
  decide (st = TaskStatus.completed ∨ st = TaskStatus.failed ∨
    st = TaskStatus.cancelled)

/-- C2 as amended: terminal statuses (COMPLETED, FAILED, CANCELLED) are
absorbing for the status-checking operations — `cancel_task` returns a
terminal task unchanged and leaves the store unchanged, and
`timeout_expired_tasks` never touches a terminal row — while
`mark_in_progress`, `mark_completed`, `mark_failed` and `update_priority` do
not check the current status and can mutate a terminal task. -/
theorem terminal_rows_absorb_checked_ops (s : QueueState) (now : Int) :
    (∀ tid t, get_task s tid = some t → terminalStatus t.status →
        cancel_task s now tid = (some t, s))
    ∧ (∀ mas : Int, ∀ i : Nat, ∀ u, s.tasks[i]? = some u →
        terminalStatus u.status →
        (timeout_expired_tasks s now mas).2.tasks[i]? = some u) := by
  constructor
  · intro tid t ht hterm
    refine runWrite_of_fix s tid _ t ht (if_neg ?_)
    intro hp
    rw [hp] at hterm
    simp [terminalStatus] at hterm
  · intro mas i u hu hterm
    by_cases hm : mas ≤ 0
    · unfold timeout_expired_tasks
      rw [if_pos hm]
      exact hu
    · rw [timeout_expired_tasks_snd s now mas (by omega)]
      rw [List.getElem?_map, hu]
      have hc : timeoutExpiredCond (now - mas) u = false := by
        cases hcc : timeoutExpiredCond (now - mas) u
        · rfl
        · obtain ⟨h1, _⟩ := (timeoutExpiredCond_iff _ u).mp hcc
          rw [h1] at hterm
          simp [terminalStatus] at hterm
      simp [hc]

/-- Witness for the amended C2 at a concrete COMPLETED task. -/
theorem terminal_rows_absorb_checked_ops_witness :
    cancel_task completedState 9 1 = (some completedTask, completedState) :=
  (terminal_rows_absorb_checked_ops completedState 9).1 1 completedTask rfl
    (by decide)

/-- Looking up a freshly inserted task finds it, provided the autoincrement
counter is fresh (as the backing store guarantees). -/
theorem get_task_add_task (s : QueueState) (now : Int) (description : String)
    (priority : TaskPriority) (context : Option Ctx)
    (su sts pid pn : Option String)
    (hfresh : ∀ t ∈ s.tasks, t.id ≠ s.next_id) :
    get_task (add_task s now description priority context su sts pid pn).2
        (add_task s now description priority context su sts pid pn).1.id =
      some (add_task s now description priority context su sts pid pn).1 := by
  have h1 : s.tasks.find? (fun t => t.id == s.next_id) = none :=
    List.find?_eq_none.mpr (fun t ht => by simpa using hfresh t ht)
  simp only [add_task, get_task]
  rw [List.find?_append, h1]
  simp

/-- C9: adding a task with a non-empty context dictionary and then reading
that context back (with no intervening writes) returns the same dictionary. -/
theorem add_then_get_context (s : QueueState) (now : Int) (description : String)
    (priority : TaskPriority) (c : Ctx) (su sts pid pn : Option String)
    (hc : c ≠ []) (hfresh : ∀ t ∈ s.tasks, t.id ≠ s.next_id) :
    get_task_context (add_task s now description priority (some c) su sts pid pn).2
      (add_task s now description priority (some c) su sts pid pn).1.id = some c := by
  have hcontext :
      (add_task s now description priority (some c) su sts pid pn).1.context
        = some c := by
    show (if c.isEmpty then none else some c) = some c
    rw [if_neg (by simpa [List.isEmpty_iff] using hc)]
  unfold get_task_context
  rw [get_task_add_task s now description priority (some c) su sts pid pn hfresh]
  show (match (add_task s now description priority (some c) su sts pid pn).1.context
        with
        | some x => some x
        | none => none) = some c
  rw [hcontext]

/-- Witness for C9 at the empty store with the context of the spec example. -/
theorem add_then_get_context_witness :
    get_task_context
        (add_task { tasks := [], next_id := 1 } 0 "x" TaskPriority.serious
          (some [("k", "v")]) none none none none).2
        (add_task { tasks := [], next_id := 1 } 0 "x" TaskPriority.serious
          (some [("k", "v")]) none none none none).1.id = some [("k", "v")] :=
  add_then_get_context { tasks := [], next_id := 1 } 0 "x" TaskPriority.serious
    [("k", "v")] none none none none (by decide) (by simp)

/-- C10: adding a task with an empty context dictionary stores the context
column as NULL, exactly as `context=None` does (the inserted rows are equal),
and a subsequent `get_task_context` on that task returns nothing rather than
the empty dictionary. -/
theorem add_empty_context_spec (s : QueueState) (now : Int) (description : String)
    (priority : TaskPriority) (su sts pid pn : Option String)
    (hfresh : ∀ t ∈ s.tasks, t.id ≠ s.next_id) :
    (add_task s now description priority (some []) su sts pid pn).1.context = none
    ∧ (add_task s now description priority (some []) su sts pid pn).1 =
        (add_task s now description priority none su sts pid pn).1
    ∧ get_task_context
        (add_task s now description priority (some []) su sts pid pn).2
        (add_task s now description priority (some []) su sts pid pn).1.id
        = none := by
  refine ⟨rfl, rfl, ?_⟩
  unfold get_task_context
  rw [get_task_add_task s now description priority (some []) su sts pid pn hfresh]
  rfl

/-- Witness for C10 at the empty store. -/
theorem add_empty_context_spec_witness :
    get_task_context
        (add_task { tasks := [], next_id := 1 } 0 "x" TaskPriority.serious
          (some []) none none none none).2
        (add_task { tasks := [], next_id := 1 } 0 "x" TaskPriority.serious
          (some []) none none none none).1.id = none :=
  (add_empty_context_spec { tasks := [], next_id := 1 } 0 "x" TaskPriority.serious
    none none none none (by simp)).2.2

/-- C6: when the awaited adapter call exceeds the configured timeout, the
runtime saves no Result for the attempt, never invokes the commit step, and
marks the task FAILED with the message "Timed out after N minute(s)" where
N = max(1, configured timeout in seconds // 60). -/
theorem execute_timeout_spec (task : Task) (qs : QueueState) (rs : ResultStore)
    (task_timeout_seconds now ptime : Int) (git_branch workspace_path : String)
    (workspace_exists : Bool) (commit_sha : Option String) :
    (execute task qs rs task_timeout_seconds now ptime ExecOutcome.timeout
        git_branch workspace_path workspace_exists commit_sha).results = rs
    ∧ (execute task qs rs task_timeout_seconds now ptime ExecOutcome.timeout
        git_branch workspace_path workspace_exists commit_sha).commit_attempted
        = false
    ∧ timeoutFailureMessage task_timeout_seconds =
        s!"Timed out after {max 1 (task_timeout_seconds / 60)} minute(s)"
    ∧ (∀ t, get_task qs task.id = some t →
        ∃ t', get_task (execute task qs rs task_timeout_seconds now ptime
              ExecOutcome.timeout git_branch workspace_path workspace_exists
              commit_sha).queue task.id = some t'
          ∧ t'.status = TaskStatus.failed
          ∧ t'.error_message = some (timeoutFailureMessage task_timeout_seconds)) := by
  refine ⟨rfl, rfl, rfl, ?_⟩
  intro t ht
  refine ⟨{ t with
      status := TaskStatus.failed
      started_at := some now
      attempt_count := t.attempt_count + 1
      error_message := some (timeoutFailureMessage task_timeout_seconds)
      completed_at := match t.completed_at with
                      | none => some now
                      | some c => some c }, ?_, rfl, rfl⟩
  show get_task (mark_failed (mark_in_progress qs now task.id).2 now task.id
      (timeoutFailureMessage task_timeout_seconds)).2 task.id = _
  rw [get_task_mark_failed, get_task_mark_in_progress, ht]
  rfl

/-- Witness for C6: a concrete timed-out execution fails the task with the
generated message (configured timeout 600 seconds gives 10 minutes). -/
theorem execute_timeout_spec_witness :
    ∃ t', get_task (execute sampleTask pendingState { results := [], next_id := 1 }
          600 10 5 ExecOutcome.timeout "branch" "ws" false none).queue
        sampleTask.id = some t'
      ∧ t'.status = TaskStatus.failed
      ∧ t'.error_message = some (timeoutFailureMessage 600) :=
  (execute_timeout_spec sampleTask pendingState { results := [], next_id := 1 }
    600 10 5 "branch" "ws" false none).2.2.2 sampleTask rfl

/-- C7: on a pause condition the runtime persists exactly one new Result whose
output is non-empty (the partial output, or the placeholder string when the
partial output is empty), marks the task COMPLETED with that result id,
computes the sleep duration as the time from now until the reported reset
time (zero when the reset time is absent or in the past), suspends for that
duration, and returns without raising. -/
theorem handle_pause_exception_spec (qs : QueueState) (rs : ResultStore)
    (now : Int) (task_id : Nat) (usage_percent : Int) (reset_time : Option Int)
    (ptime : Int) (result_output : String) (files cmds : List String)
    (workspace : Option String) :
    (∃ r, (handle_pause_exception qs rs now task_id usage_percent reset_time
          ptime result_output files cmds workspace).results.results =
            rs.results ++ [r]
        ∧ r.output = (if result_output = "" then "[Task completed before pause]"
            else result_output)
        ∧ r.output ≠ ""
        ∧ r.task_id = task_id ∧ r.files_modified = files
        ∧ r.commands_executed = cmds)
    ∧ (∀ t, get_task qs task_id = some t →
        ∃ t', get_task (handle_pause_exception qs rs now task_id usage_percent
              reset_time ptime result_output files cmds workspace).queue task_id
            = some t'
          ∧ t'.status = TaskStatus.completed ∧ t'.result_id = some rs.next_id)
    ∧ (reset_time = none →
        (handle_pause_exception qs rs now task_id usage_percent reset_time ptime
          result_output files cmds workspace).sleep_seconds = 0)
    ∧ (∀ rt, reset_time = some rt → rt ≤ now →
        (handle_pause_exception qs rs now task_id usage_percent reset_time ptime
          result_output files cmds workspace).sleep_seconds = 0)
    ∧ (∀ rt, reset_time = some rt → now ≤ rt →
        (handle_pause_exception qs rs now task_id usage_percent reset_time ptime
          result_output files cmds workspace).sleep_seconds = rt - now)
    ∧ (handle_pause_exception qs rs now task_id usage_percent reset_time ptime
        result_output files cmds workspace).raised = false := by
  refine ⟨?_, ?_, ?_, ?_, ?_, rfl⟩
  · refine ⟨_, rfl, rfl, ?_, rfl, rfl, rfl⟩
    by_cases h : result_output = ""
    · show (if result_output = "" then "[Task completed before pause]"
          else result_output) ≠ ""
      rw [if_pos h]
      decide
    · show (if result_output = "" then "[Task completed before pause]"
          else result_output) ≠ ""
      rw [if_neg h]
      exact h
  · intro t ht
    refine ⟨{ t with
        status := TaskStatus.completed
        completed_at := some now
        result_id := some rs.next_id }, ?_, rfl, rfl⟩
    show get_task (mark_completed qs now task_id (some rs.next_id)).2 task_id = _
    rw [get_task_mark_completed, ht]
    rfl
  · intro h
    subst h
    rfl
  · intro rt h hle
    subst h
    show max 0 (rt - now) = 0
    omega
  · intro rt h hle
    subst h
    show max 0 (rt - now) = rt - now
    omega

/-- Witness for C7: a concrete pause with reset 120 seconds in the future
sleeps 120 seconds, and the paused task is marked COMPLETED. -/
theorem handle_pause_exception_spec_witness :
    (handle_pause_exception pendingState { results := [], next_id := 1 } 0 1 95
        (some 120) 3 "" [] [] none).sleep_seconds = 120
    ∧ (∃ t', get_task (handle_pause_exception pendingState
          { results := [], next_id := 1 } 0 1 95 (some 120) 3 "" [] [] none).queue 1
        = some t'
      ∧ t'.status = TaskStatus.completed ∧ t'.result_id = some 1) :=
  ⟨(handle_pause_exception_spec pendingState { results := [], next_id := 1 } 0 1 95
      (some 120) 3 "" [] [] none).2.2.2.2.1 120 rfl (by decide),
   (handle_pause_exception_spec pendingState { results := [], next_id := 1 } 0 1 95
      (some 120) 3 "" [] [] none).2.1 sampleTask rfl⟩

/-- Final queue of a normal-return execution: a chained
in-progress/terminal transition decided by the evaluator gate. -/
theorem execute_success_queue (task : Task) (qs : QueueState) (rs : ResultStore)
    (cfg now ptime : Int) (output : String) (files cmds : List String)
    (exit_code : Int) (eval_status : Option String)
    (git_branch workspace_path : String) (workspace_exists : Bool)
    (commit_sha : Option String) :
    (execute task qs rs cfg now ptime
        (ExecOutcome.success output files cmds exit_code eval_status)
        git_branch workspace_path workspace_exists commit_sha).queue =
      if evaluatorOverride eval_status then
        (mark_failed (mark_in_progress qs now task.id).2 now task.id
          (match eval_status with
           | some e => "Evaluator status: " ++ e
           | none => "Evaluator status: None")).2
      else
        (mark_completed (mark_in_progress qs now task.id).2 now task.id
          (some rs.next_id)).2 := by
  unfold execute
  by_cases hov : evaluatorOverride eval_status
  · simp [hov]
  · simp only [hov, Bool.false_eq_true, if_false]
    rfl

/-- Final result store of a normal-return execution: the saved Result plus
the conditional commit-info backfill. -/
theorem execute_success_results (task : Task) (qs : QueueState) (rs : ResultStore)
    (cfg now ptime : Int) (output : String) (files cmds : List String)
    (exit_code : Int) (eval_status : Option String)
    (git_branch workspace_path : String) (workspace_exists : Bool)
    (commit_sha : Option String) :
    (execute task qs rs cfg now ptime
        (ExecOutcome.success output files cmds exit_code eval_status)
        git_branch workspace_path workspace_exists commit_sha).results =
      (let saved := save_result rs task.id output
          (files.mergeSort (fun a b => !decide (b < a))) cmds ptime none none
          (some git_branch) workspace_path
       if workspace_exists then
         match commit_sha with
         | some sha =>
             update_result_commit_info saved.2 saved.1.id (some sha) none
               (some git_branch)
         | none => saved.2
       else saved.2) := by
  unfold execute
  by_cases hov : evaluatorOverride eval_status <;> simp [hov]

/-- Backfilling commit info keeps the (updated) row in the store. -/
theorem mem_update_result_commit_info (rs : ResultStore) (rid : Nat)
    (sha pr br : Option String) (r : ResultRec) (hr : r ∈ rs.results)
    (hid : r.id = rid) :
    { r with git_commit_sha := sha, git_pr_url := pr, git_branch := br } ∈
      (update_result_commit_info rs rid sha pr br).results := by
  unfold update_result_commit_info
  refine List.mem_map.mpr ⟨r, hr, ?_⟩
  rw [if_pos (by simp [hid])]

/-- C5 as amended: when the adapter returns normally, a Result holding the
output, files (as a permutation: the runtime sorts them), commands, processing
time and workspace path is always persisted; the evaluator gate is
case-insensitive — the task is marked FAILED with message
"Evaluator status: X" (X the reported status verbatim) exactly when the
upper-cased, non-empty status is one of INCOMPLETE, FAILED or PARTIAL — and
with any other evaluation status (or none) the task is marked COMPLETED with
`result_id` referencing the saved Result. -/
theorem execute_success_evaluator_spec (task : Task) (qs : QueueState)
    (rs : ResultStore) (cfg now ptime : Int) (output : String)
    (files cmds : List String) (exit_code : Int) (eval_status : Option String)
    (git_branch workspace_path : String) (workspace_exists : Bool)
    (commit_sha : Option String) :
    (∃ r, r ∈ (execute task qs rs cfg now ptime
          (ExecOutcome.success output files cmds exit_code eval_status)
          git_branch workspace_path workspace_exists commit_sha).results.results
        ∧ r.id = rs.next_id ∧ r.task_id = task.id ∧ r.output = output
        ∧ r.files_modified.Perm files ∧ r.commands_executed = cmds
        ∧ r.processing_time_seconds = ptime ∧ r.workspace_path = workspace_path)
    ∧ (∀ e, evaluatorOverride (some e) = true ↔
        (e ≠ "" ∧ (strUpper e = "INCOMPLETE" ∨ strUpper e = "FAILED" ∨
          strUpper e = "PARTIAL")))
    ∧ evaluatorOverride none = false
    ∧ (∀ t e, get_task qs task.id = some t → eval_status = some e →
        evaluatorOverride (some e) = true →
        ∃ t', get_task (execute task qs rs cfg now ptime
              (ExecOutcome.success output files cmds exit_code eval_status)
              git_branch workspace_path workspace_exists commit_sha).queue task.id
            = some t'
          ∧ t'.status = TaskStatus.failed
          ∧ t'.error_message = some ("Evaluator status: " ++ e))
    ∧ (∀ t, get_task qs task.id = some t → evaluatorOverride eval_status = false →
        ∃ t', get_task (execute task qs rs cfg now ptime
              (ExecOutcome.success output files cmds exit_code eval_status)
              git_branch workspace_path workspace_exists commit_sha).queue task.id
            = some t'
          ∧ t'.status = TaskStatus.completed
          ∧ t'.result_id = some rs.next_id) := by
  refine ⟨?_, ?_, rfl, ?_, ?_⟩
  · rw [execute_success_results]
    by_cases hw : workspace_exists
    · cases hcs : commit_sha with
      | some sha =>
          simp only [hw, if_pos, hcs]
          refine ⟨{ (save_result rs task.id output
              (files.mergeSort (fun a b => !decide (b < a))) cmds ptime none none
              (some git_branch) workspace_path).1 with
                git_commit_sha := some sha
                git_pr_url := none
                git_branch := some git_branch }, ?_, rfl, rfl, rfl,
            List.mergeSort_perm files _, rfl, rfl, rfl⟩
          exact mem_update_result_commit_info _ _ _ _ _ _
            (List.mem_append_right _ (List.mem_singleton_self _)) rfl
      | none =>
          simp only [hw, if_pos, hcs]
          exact ⟨_, List.mem_append_right _ (List.mem_singleton_self _),
            rfl, rfl, rfl, List.mergeSort_perm files _, rfl, rfl, rfl⟩
    · simp only [Bool.not_eq_true] at hw
      simp only [hw, Bool.false_eq_true, if_false]
      exact ⟨_, List.mem_append_right _ (List.mem_singleton_self _),
        rfl, rfl, rfl, List.mergeSort_perm files _, rfl, rfl, rfl⟩
  · intro e
    simp [evaluatorOverride]
  · intro t e ht heval hov
    subst heval
    rw [execute_success_queue]
    rw [if_pos hov]
    refine ⟨{ t with
        status := TaskStatus.failed
        started_at := some now
        attempt_count := t.attempt_count + 1
        error_message := some ("Evaluator status: " ++ e)
        completed_at := match t.completed_at with
                        | none => some now
                        | some c => some c }, ?_, rfl, rfl⟩
    rw [get_task_mark_failed, get_task_mark_in_progress, ht]
    rfl
  · intro t ht hov
    rw [execute_success_queue]
    rw [if_neg (by simp [hov])]
    refine ⟨{ t with
        status := TaskStatus.completed
        started_at := some now
        attempt_count := t.attempt_count + 1
        completed_at := some now
        result_id := some rs.next_id }, ?_, rfl, rfl⟩
    rw [get_task_mark_completed, get_task_mark_in_progress, ht]
    rfl

/-- C5 counterexample: the lowercase status "incomplete" is not an element of
the exact set {INCOMPLETE, FAILED, PARTIAL}, yet a normal return reporting it
marks the task FAILED rather than COMPLETED, because the code compares the
upper-cased status. -/
theorem execute_evaluator_exact_set_cex :
    Option.map Task.status
        (get_task (execute sampleTask pendingState { results := [], next_id := 1 }
            600 10 5 (ExecOutcome.success "out" [] [] 0 (some "incomplete"))
            "branch" "ws" false none).queue sampleTask.id)
      = some TaskStatus.failed
    ∧ ¬("incomplete" = "INCOMPLETE" ∨ "incomplete" = "FAILED" ∨
        "incomplete" = "PARTIAL") := by
  exact ⟨by decide, by decide⟩

/-- Witness for the amended C5: the concrete lowercase status "incomplete"
trips the case-insensitive gate and the task ends FAILED with the verbatim
message. -/
theorem execute_success_evaluator_spec_witness :
    ∃ t', get_task (execute sampleTask pendingState { results := [], next_id := 1 }
          600 10 5 (ExecOutcome.success "out" [] [] 0 (some "incomplete"))
          "branch" "ws" false none).queue sampleTask.id = some t'
      ∧ t'.status = TaskStatus.failed
      ∧ t'.error_message = some ("Evaluator status: " ++ "incomplete") :=
  (execute_success_evaluator_spec sampleTask pendingState
      { results := [], next_id := 1 } 600 10 5 "out" [] [] 0 (some "incomplete")
      "branch" "ws" false none).2.2.2.1 sampleTask "incomplete" rfl rfl (by decide)

/-- Workspace with a single readable file whose contents hold a lowercase
credential marker and no other secret-looking token. -/
def credentialWorkspace : String → Option String :=
  fun f => if f = "notes.txt" then some "db credential=xyz" else none

/-- C8 evidence: the pattern "credential" appears verbatim in the pattern
list and the file contents contain it as a case-insensitive substring, yet
`validate_changes` returns ok with message "OK": the lowercase pattern is
compared against the upper-cased contents, so it can never match. -/
theorem validate_changes_credential_gap :
    validate_changes credentialWorkspace (fun _ => true) ["notes.txt"]
        = (true, "OK")
    ∧ "credential" ∈ secret_patterns
    ∧ strContainsSub (strUpper "db credential=xyz") (strUpper "credential") = true
    ∧ contains_secrets credentialWorkspace "notes.txt" = false := by
  exact ⟨by decide, by decide, by decide, by decide⟩

end SleeplessAgent
